import Mathlib

/- Verification development for the theymer incremental render pipeline.
   The Rust sources are shallowly embedded: pure functions become Lean
   functions, filesystem and manifest state is passed explicitly, and the
   hashing / serialization provided by external crates is abstracted as
   function parameters. Repository modules that are not present in the
   source snapshot (src/manifest.rs, src/output.rs, src/templates.rs and
   the src/themes submodules other than config.rs) are modelled from the
   specification; every such definition is marked in its doc comment. -/

namespace Theymer

/-- Filesystem paths are modelled as lists of path components. -/
abbrev PathT := List String

/-- Render a path as a slash-separated string (Path::display). -/
def pathStr (p : PathT) : String :=
  String.intercalate "/" p

/-- Fueled worker for `strReplace`: replaces every non-overlapping
occurrence of a nonempty pattern, scanning left to right, exactly as
Rust's `str::replace` does. The fuel is the length of the scanned list,
which makes the recursion structural (so the kernel can evaluate it). -/
def listReplaceGo (pat rep : List Char) : Nat → List Char → List Char
  | 0, _ => []
  | _ + 1, [] => []
  | fuel + 1, c :: cs =>
    if pat ≠ [] ∧ pat.isPrefixOf (c :: cs) then
      rep ++ listReplaceGo pat rep fuel (List.drop (pat.length - 1) cs)
    else
      c :: listReplaceGo pat rep fuel cs

/-- Embedding of Rust `str::replace` (replace all occurrences). -/
def strReplace (s pat rep : String) : String :=
  String.mk (listReplaceGo pat.data rep.data s.data.length s.data)

/-- Embedding of Rust `str::strip_suffix`. -/
def stripSuffix (s suffix : String) : Option String :=
  if suffix.data.isSuffixOf s.data then
    some (String.mk (s.data.take (s.data.length - suffix.data.length)))
  else none

/-- Split a character list on the path separator. -/
def splitSlash : List Char → List (List Char)
  | [] => [[]]
  | c :: cs =>
    if c = '/' then [] :: splitSlash cs
    else
      match splitSlash cs with
      | [] => [[c]]
      | g :: gs => (c :: g) :: gs

/-- Normal components of a relative path string, as yielded by Rust
`Path::components` (empty segments and `.` segments are skipped). -/
def components (s : String) : List String :=
  ((splitSlash s.data).map (fun l => String.mk l)).filter
    (fun c => !(c == "" || c == "."))

/-- Embedding of Rust `Path::file_name`: the last component, unless the
path is empty or ends in `..`. -/
def file_name (s : String) : Option String :=
  match (components s).getLast? with
  | none => none
  | some c => if c = ".." then none else some c

/-- Modelled from the spec: `FileStatus` lives in src/output.rs, which is
not part of the source snapshot (§3: one of NotTracked, Unchanged, Stale,
Modified). -/
inductive FileStatus
  | NotTracked
  | Unchanged
  | Stale
  | Modified
deriving DecidableEq, Repr

/-- Modelled from the spec: `Decision` lives in src/output.rs, which is
not part of the source snapshot (§3: one of Write, ForceWrite, Skip,
Conflict). -/
inductive Decision
  | Write
  | ForceWrite
  | Skip
  | Conflict
deriving DecidableEq, Repr

/-- Modelled from the spec: `WriteMode` lives in src/output.rs, which is
not part of the source snapshot (§3: recognized values Normal and
Force). -/
inductive WriteMode
  | Normal
  | Force
deriving DecidableEq, Repr

namespace strategy

/-- Modelled from the spec: `strategy::decide` lives in src/output.rs,
which is not part of the source snapshot; the table of §4.4 defines it. -/
def decide : FileStatus → WriteMode → Decision
  | .NotTracked, _ => .Write
  | .Stale, _ => .Write
  | .Unchanged, .Normal => .Skip
  | .Unchanged, .Force => .ForceWrite
  | .Modified, .Normal => .Conflict
  | .Modified, .Force => .ForceWrite

end strategy

/-- Modelled from the spec: `Decision::should_write` lives in
src/output.rs, which is not part of the source snapshot; §4.4 executes
Write and ForceWrite as writes and nothing else. -/
def should_write : Decision → Bool
  | .Write => true
  | .ForceWrite => true
  | .Skip => false
  | .Conflict => false

/-- Modelled from the spec: the human-readable action label of a
Decision (§4.4: every branch reports an action label for logging). -/
def log_action : Decision → String
  | .Write => "write"
  | .ForceWrite => "force write"
  | .Skip => "skip"
  | .Conflict => "conflict"

/-- Modelled from the spec: `Swatch` lives in src/themes/swatches.rs,
which is not part of the source snapshot; a swatch is one named color
entry inside a palette, identity-keyed by its name (§3, glossary). -/
structure Swatch where
  name : String
  color : String
deriving DecidableEq, Repr

/-- Modelled from the spec: `Meta` lives in src/themes/schemes.rs, which
is not part of the source snapshot; its six fields are named by the
`impl_merge_for_all_fields!` invocation in src/extensions.rs and are
optional scalars. -/
structure Meta where
  author : Option String
  author_ascii : Option String
  license : Option String
  license_ascii : Option String
  blurb : Option String
  blurb_ascii : Option String
deriving DecidableEq, Repr

/-- Modelled from the spec: `Extra` lives in src/themes/schemes.rs, which
is not part of the source snapshot; src/extensions.rs shows its single
`rainbow` list field, treated as absent when empty (§4.1). -/
structure Extra where
  rainbow : List String
deriving DecidableEq, Repr

/-- Modelled from the spec: `Palette` lives in src/themes/swatches.rs,
which is not part of the source snapshot; it is an `IndexSet` of
swatches, identity-keyed by swatch name (§3, glossary). -/
structure Palette where
  swatches : List Swatch
deriving DecidableEq, Repr

/-- The swatch names of a palette, in order. -/
def Palette.keys (p : Palette) : List String :=
  p.swatches.map Swatch.name

/-- Modelled from the spec: `Roles` lives in src/themes/roles.rs, which
is not part of the source snapshot; §4.1 describes it as an ordered
append-only collection of semantic role assignments in which duplicates
by key are allowed. -/
structure Roles where
  entries : List (String × String)
deriving DecidableEq, Repr

/-- Modelled from the spec: `RawScheme` lives in src/themes/schemes.rs,
which is not part of the source snapshot; its fields are named by the
`impl_merge_for_all_fields!` invocation in src/extensions.rs. -/
structure RawScheme where
  scheme : Option String
  scheme_ascii : Option String
  meta : Meta
  palette : Palette
  roles : Roles
  extra : Extra
deriving DecidableEq, Repr

/-- `Provider` from src/config.rs: a source-hosting service definition. -/
structure Provider where
  host : String
  blob_path : Option String
  raw_path : Option String
  branch : Option String
deriving DecidableEq, Repr

/-- The `Merge` trait of src/extensions.rs. -/
class Merge (α : Type) where
  merge : α → α → α

/-- `impl Merge for Option<T>` from src/extensions.rs: `self.or(base)`. -/
instance instMergeOption {α : Type} : Merge (Option α) :=
  ⟨fun s b => s.or b⟩

/-- `impl_merge_for_all_fields!(Meta { ... })` from src/extensions.rs. -/
instance instMergeMeta : Merge Meta :=
  ⟨fun s b =>
    { author := Merge.merge s.author b.author
      author_ascii := Merge.merge s.author_ascii b.author_ascii
      license := Merge.merge s.license b.license
      license_ascii := Merge.merge s.license_ascii b.license_ascii
      blurb := Merge.merge s.blurb b.blurb
      blurb_ascii := Merge.merge s.blurb_ascii b.blurb_ascii }⟩

/-- `impl Merge for Extra` from src/extensions.rs: self's rainbow unless
it is empty. -/
instance instMergeExtra : Merge Extra :=
  ⟨fun s b => ⟨if s.rainbow.isEmpty then b.rainbow else s.rainbow⟩⟩

/-- `IndexSet::replace` on the name-keyed swatch set: replace the first
(and, under the set invariant, only) swatch with the same name in place,
otherwise append at the end. -/
def replaceSwatch : List Swatch → Swatch → List Swatch
  | [], s => [s]
  | t :: ts, s => if t.name = s.name then s :: ts else t :: replaceSwatch ts s

/-- `impl Merge for Palette` from src/extensions.rs: start from base and
replace with each of self's swatches. -/
instance instMergePalette : Merge Palette :=
  ⟨fun s b => ⟨s.swatches.foldl replaceSwatch b.swatches⟩⟩

/-- `impl Merge for Roles` from src/extensions.rs: `base.0.extend(self.0)`
on the append-only role collection. -/
instance instMergeRoles : Merge Roles :=
  ⟨fun s b => ⟨b.entries ++ s.entries⟩⟩

/-- `impl_merge_for_all_fields!(RawScheme { ... })` from src/extensions.rs. -/
instance instMergeRawScheme : Merge RawScheme :=
  ⟨fun s b =>
    { scheme := Merge.merge s.scheme b.scheme
      scheme_ascii := Merge.merge s.scheme_ascii b.scheme_ascii
      meta := Merge.merge s.meta b.meta
      palette := Merge.merge s.palette b.palette
      roles := Merge.merge s.roles b.roles
      extra := Merge.merge s.extra b.extra }⟩

/-- `impl Merge for Provider` from src/extensions.rs: field-wise except
`host`, which is always self's. -/
instance instMergeProvider : Merge Provider :=
  ⟨fun s b =>
    { host := s.host
      blob_path := Merge.merge s.blob_path b.blob_path
      raw_path := Merge.merge s.raw_path b.raw_path
      branch := Merge.merge s.branch b.branch }⟩

/-- `default_providers` from src/config.rs: the four built-ins. -/
def default_providers : List Provider :=
  [{ host := "github.com"
     blob_path := some "{host}/{owner}/{repo}/blob/{ref}/{file}"
     raw_path := some "raw.githubusercontent.com/{owner}/{repo}/{ref}/{file}"
     branch := none },
   { host := "gitlab.com"
     blob_path := some "{host}/{owner}/{repo}/-/blob/{ref}/{file}"
     raw_path := some "{host}/{owner}/{repo}/-/raw/{ref}/{file}"
     branch := none },
   { host := "codeberg.org"
     blob_path := some "{host}/{owner}/{repo}/src/branch/{ref}/{file}"
     raw_path := some "{host}/{owner}/{repo}/raw/branch/{ref}/{file}"
     branch := none },
   { host := "bitbucket.org"
     blob_path := some "{host}/{owner}/{repo}/src/{ref}/{file}"
     raw_path := some "{host}/{owner}/{repo}/raw/{ref}/{file}"
     branch := none }]

/-- The host-keyed `IndexMap<String, Provider>` used by provider
resolution, embedded as an insertion-ordered association list. -/
abbrev PMap := List (String × Provider)

/-- `IndexMap::get`: first (unique) value stored at the key. -/
def PMap.get : PMap → String → Option Provider
  | [], _ => none
  | (k, v) :: m, key => if k = key then some v else PMap.get m key

/-- `IndexMap::insert`: replace in place if the key is present, else
append at the end. -/
def PMap.insert : PMap → String → Provider → PMap
  | [], k, v => [(k, v)]
  | (k', v') :: m, k, v =>
    if k' = k then (k, v) :: m else (k', v') :: PMap.insert m k v

/-- The loop body of `merge_providers_with_defaults` in src/config.rs:
a user provider with a known host is merged over the stored default and
re-inserted (keeping its position); an unknown host is appended. -/
def provider_step (m : PMap) (up : Provider) : PMap :=
  match PMap.get m up.host with
  | some d =>
    let merged := Merge.merge up d
    PMap.insert m merged.host merged
  | none => PMap.insert m up.host up

/-- `merge_providers_with_defaults` from src/config.rs. -/
def merge_providers_with_defaults (user_providers : List Provider) :
    List Provider :=
  let init : PMap := default_providers.map (fun p => (p.host, p))
  (user_providers.foldl provider_step init).map (fun kv => kv.2)

/-- `config::FILENAME` from src/config.rs. -/
def FILENAME : String := "theymer.toml"

/-- `ProjectType` from src/config.rs. -/
inductive ProjectType
  | Monotheme
  | Polytheme
deriving DecidableEq, Repr

/-- The resolved per-theme directories of src/themes/config.rs. -/
structure ThemeDirs where
  schemes : PathT
  templates : PathT
  render : PathT
deriving DecidableEq, Repr

/-- The resolved per-theme `Config` of src/themes/config.rs. -/
structure ThemeConfig where
  inherit : Bool
  dirs : ThemeDirs
deriving DecidableEq, Repr

/-- The raw (pre-expansion) per-theme directory strings of
src/themes/config.rs. -/
structure RawThemeDirs where
  schemes : String
  templates : String
  render : String
deriving DecidableEq, Repr

/-- The raw per-theme config of src/themes/config.rs. -/
structure RawThemeConfig where
  inherit : Bool
  dirs : RawThemeDirs
deriving DecidableEq, Repr

/-- The error cases that `themes::config::load` can produce, from the
`themes::Error` enum in src/themes.rs (Reading carries the offending
path; parse and path-expansion failures are collapsed to one tag each
because their payloads come from external crates). -/
inductive LoadErr
  | Reading (path : PathT)
  | Parsing
  | Expanding
deriving DecidableEq, Repr

/-- `themes::config::load` from src/themes/config.rs. The filesystem
read, `config::parse` (toml) and `config::expand_and_resolve`
(shellexpand) are abstracted as parameters: `readFile` is the content of
`themes_dir/theymer.toml` (`none` meaning the read failed), `parse` and
`expand` are the fallible external conversions. The render directory is
computed exactly as in the source: under `inherit` it is the project's
shared render target joined with the theme name when that target exists,
otherwise the theme-local render directory. -/
def themes_config_load (themes_dir : PathT) (name : String)
    (render_all_into : Option PathT) (readFile : Option String)
    (parse : String → Except Unit RawThemeConfig)
    (expand : String → PathT → Except Unit PathT) :
    Except LoadErr (Option ThemeConfig) :=
  match readFile with
  | none => .error (.Reading (themes_dir ++ [FILENAME]))
  | some content =>
    match parse content with
    | .error _ => .error .Parsing
    | .ok raw =>
      match expand raw.dirs.schemes themes_dir with
      | .error _ => .error .Expanding
      | .ok schemes =>
        match expand raw.dirs.templates themes_dir with
        | .error _ => .error .Expanding
        | .ok templates =>
          .ok (some
            { inherit := raw.inherit
              dirs :=
                { schemes := schemes
                  templates := templates
                  render :=
                    if raw.inherit then
                      match render_all_into with
                      | none => themes_dir ++ [raw.dirs.render]
                      | some dir => dir ++ [name]
                    else themes_dir ++ [raw.dirs.render] } })

/-- `Theme` from src/themes.rs, restricted to the fields the render core
reads: its validated name, ascii name, and optional per-theme config
(schemes are consumed separately). Serde serializes exactly the two name
fields (the `schemes` and `config` fields are `#[serde(skip)]`). -/
structure Theme where
  name : String
  name_ascii : String
  config : Option ThemeConfig
deriving DecidableEq, Repr

/-- The themes.rs wiring of a loaded theme: `load` propagates a config
load error and otherwise stores the loaded option in `Theme.config`
(src/themes.rs lines 116-122 and 196-201). -/
def theme_from_load (name : String) (name_ascii : String)
    (cfgLoad : Except LoadErr (Option ThemeConfig)) : Except LoadErr Theme :=
  match cfgLoad with
  | .error e => .error e
  | .ok tc => .ok ⟨name, name_ascii, tc⟩

/-- Modelled from the spec: `Scheme` lives in src/themes/schemes.rs,
which is not part of the source snapshot; the core consumes it opaquely
through its name and its stable serialized form (§4.3), modelled by the
`ser` field. -/
structure Scheme where
  name : String
  ser : String
deriving DecidableEq, Repr

/-- A minijinja template as the core consumes it: its name and source
text (external crate, modelled by its two accessors used in
src/render/index.rs). -/
structure Template where
  name : String
  source : String
deriving DecidableEq, Repr

/-- The stable serialized form of a `Theme` (serde_json in
src/render/index.rs serializes the renamed `theme` and `theme_ascii`
fields and skips the rest). -/
def serializeTheme (t : Theme) : String :=
  "theme=" ++ t.name ++ ";theme_ascii=" ++ t.name_ascii

/-- `hash_theme` from src/render/index.rs, with the hash function `h`
abstracted (spec §4.3: any stable digest). -/
def hash_theme (h : String → String) (t : Theme) : String :=
  h (serializeTheme t)

/-- `hash_scheme` from src/render/index.rs. -/
def hash_scheme (h : String → String) (s : Scheme) : String :=
  h s.ser

/-- `hash_template` from src/render/index.rs: digest of the template
source text. -/
def hash_template (h : String → String) (T : Template) : String :=
  h T.source

/-- `Entry` from src/render/index.rs. -/
structure Entry where
  path : PathT
  theme : String
  scheme : String
  template : String
  render_hash : String
  theme_hash : String
  scheme_hash : String
  template_hash : String
deriving DecidableEq, Repr

/-- The on-disk filesystem fragment the render core touches: an
association from paths to file contents. -/
abbrev FS := List (PathT × String)

/-- Read the file at a path (`none` when the file is missing). -/
def FS.read : FS → PathT → Option String
  | [], _ => none
  | (q, c) :: fs, p => if q = p then some c else FS.read fs p

/-- Write a file, replacing any previous content at the path. -/
def FS.write : FS → PathT → String → FS
  | [], p, c => [(p, c)]
  | (q, d) :: fs, p, c =>
    if q = p then (p, c) :: fs else (q, d) :: FS.write fs p c

namespace Index

/-- `Manifest::get` (src/manifest.rs is not in the source snapshot).
Modelled from the spec: the Index is keyed by output path, one entry per
path (§3). -/
def get : List Entry → PathT → Option Entry
  | [], _ => none
  | e :: idx, p => if e.path = p then some e else get idx p

/-- `Manifest::insert` (src/manifest.rs is not in the source snapshot).
Modelled from the spec: later writes replace earlier ones at the same
path (§3). -/
def insert : List Entry → Entry → List Entry
  | [], e => [e]
  | f :: idx, e =>
    if f.path = e.path then e :: idx else f :: insert idx e

end Index

/-- Whether the hash of the file currently on disk at `p` matches a
stored render hash; a missing file counts as a mismatch (§4.3). -/
def disk_matches (h : String → String) (fs : FS) (p : PathT)
    (render_hash : String) : Bool :=
  match FS.read fs p with
  | none => false
  | some content => h content == render_hash

/-- The freshly computed input hashes compared against an entry's stored
values: the closure passed to `manifest::check_status` in
src/render/index.rs. -/
def inputs_changed (h : String → String) (t : Theme) (s : Scheme)
    (T : Template) (entry : Entry) : Bool :=
  (hash_theme h t != entry.theme_hash) ||
    (hash_scheme h s != entry.scheme_hash) ||
      (hash_template h T != entry.template_hash)

/-- `manifest::check_status` (src/manifest.rs is not in the source
snapshot). Modelled from the spec (§4.3): a disk mismatch (including a
missing file) is Modified; otherwise changed inputs are Stale and equal
inputs are Unchanged. -/
def check_status (h : String → String) (fs : FS) (p : PathT)
    (render_hash : String) (ic : Bool) : FileStatus :=
  if disk_matches h fs p render_hash then
    if ic then .Stale else .Unchanged
  else .Modified

/-- `Index::check` from src/render/index.rs. -/
def Index.check (h : String → String) (fs : FS) (idx : List Entry)
    (p : PathT) (t : Theme) (s : Scheme) (T : Template) : FileStatus :=
  match Index.get idx p with
  | none => .NotTracked
  | some entry =>
    check_status h fs p entry.render_hash (inputs_changed h t s T entry)

/-- `Index::create_entry` from src/render/index.rs. -/
def Index.create_entry (h : String → String) (p : PathT) (t : Theme)
    (s : Scheme) (T : Template) (content : String) : Entry :=
  { path := p
    template := T.name
    theme := t.name
    scheme := s.name
    render_hash := h content
    template_hash := hash_template h T
    theme_hash := hash_theme h t
    scheme_hash := hash_scheme h s }

/-- `ResolvedProject` from src/config.rs, restricted to the fields the
render core reads. -/
structure ResolvedProject where
  type : ProjectType
  render_all_into : Option PathT
  root : PathT
deriving DecidableEq, Repr

/-- `Config` from src/config.rs, restricted to the fields the render
core reads (directories and directive lists are consumed by the external
collaborators). -/
structure Config where
  project : ResolvedProject
deriving DecidableEq, Repr

/-- `JINJA_TEMPLATE_SUFFIX` (src/templates.rs is not in the source
snapshot). Modelled from the spec: template files carry a distinguishing
suffix that is stripped to produce the output filename (§6), and
src/extensions.rs recognizes the `jinja` extension. -/
def JINJA_TEMPLATE_SUFFIX : String := ".jinja"

/-- `THEME_MARKER` from src/render.rs. -/
def THEME_MARKER : String := "THEME"

/-- `SCHEME_MARKER` from src/render.rs. -/
def SCHEME_MARKER : String := "SCHEME"

/-- `SWATCH_MARKER` from src/render.rs. -/
def SWATCH_MARKER : String := "SWATCH"

/-- The outcome of `resolve_path`: a resolved path, an error value
(`Error::InternalBug` carried through `anyhow::Result`), or a process
abort. The `panic` constructor models the `.expect("FIXME")` calls in
src/render.rs, which abort the process instead of returning an error. -/
inductive PathResult
  | ok (p : PathT)
  | err (module : String) (reason : String)
  | panic (msg : String)
deriving DecidableEq, Repr

/-- `resolve_path` from src/render.rs: strip the template suffix, split
off the filename (a corrupted relative path is an internal-bug error),
substitute the THEME/SCHEME/SWATCH markers into the filename, and prefix
the render directory. The render directory is the theme config's render
dir when a theme config exists; otherwise the source evaluates
`theme.config.clone().expect("FIXME")` (Polytheme) or
`config.project.render_all_into.expect("FIXME")` (Monotheme with no
shared render target), both of which panic. -/
def resolve_path (theme : Theme) (template_name : String)
    (scheme_name : String) (config : Config)
    (swatch_name : Option String) : PathResult :=
  let relative_path :=
    (stripSuffix template_name JINJA_TEMPLATE_SUFFIX).getD template_name
  match file_name relative_path with
  | none =>
    .err "render"
      ("attempted to render to corrupted path `" ++ relative_path ++ "`")
  | some filename =>
    let parent_dirs := (components relative_path).dropLast
    let render :=
      match swatch_name with
      | none =>
        strReplace (strReplace filename THEME_MARKER theme.name)
          SCHEME_MARKER scheme_name
      | some swatch =>
        strReplace
          (strReplace (strReplace filename THEME_MARKER theme.name)
            SCHEME_MARKER scheme_name)
          SWATCH_MARKER swatch
    match theme.config with
    | some theme_config =>
      .ok (theme_config.dirs.render ++ parent_dirs ++ [render])
    | none =>
      match config.project.type with
      | .Polytheme => .panic "FIXME"
      | .Monotheme =>
        match config.project.render_all_into with
        | some dir => .ok (dir ++ parent_dirs ++ [render])
        | none => .panic "FIXME"

/-- One candidate output of the render loop, with its already-resolved
output path and the prepared content (header plus rendered body) that
`write` in src/render.rs passes to `execute`. -/
structure Candidate where
  path : PathT
  theme : Theme
  scheme : Scheme
  template : Template
  output : String
deriving DecidableEq, Repr

/-- The state `execute` can touch: the files on disk, the set of created
directories, and the in-memory Index owned by the Session. -/
structure SState where
  fs : FS
  dirs : List PathT
  index : List Entry
deriving DecidableEq, Repr

/-- Log severity of the messages `execute` emits. -/
inductive LogLevel
  | warn
  | info
  | debug
deriving DecidableEq, Repr

/-- The warning `execute` logs for a conflict, naming the path. -/
def conflict_warning (p : PathT) : String :=
  "conflict: `" ++ pathStr p ++
    "` (last modified by user; use `--force` to overwrite)"

/-- Record a directory created by `fs::create_dir_all` (idempotent). -/
def addDir (dirs : List PathT) (d : PathT) : List PathT :=
  if d ∈ dirs then dirs else dirs ++ [d]

/-- `execute` from src/render.rs: a Conflict only logs a warning naming
the path; a write decision under dry-run only logs the intended action;
a write decision otherwise creates the parent directory, writes the
bytes, runs the external post-write formatter `fmt`, re-reads the
formatted content, and inserts a fresh entry into the Index; anything
else logs a skip. Returns the new state and the emitted log messages. -/
def execute (h : String → String) (fmt : String → String) (dry_run : Bool)
    (decision : Decision) (c : Candidate) (st : SState) :
    SState × List (LogLevel × String) :=
  match decision with
  | .Conflict => (st, [(.warn, conflict_warning c.path)])
  | d =>
    if should_write d then
      if dry_run then
        (st,
          [(.info,
            "would write `" ++ pathStr c.path ++ "` (" ++ log_action d ++
              ")")])
      else
        let written := fmt c.output
        let entry :=
          Index.create_entry h c.path c.theme c.scheme c.template written
        ({ fs := FS.write st.fs c.path written
           dirs := addDir st.dirs c.path.dropLast
           index := Index.insert st.index entry },
          [(.info, "generated `" ++ pathStr c.path ++ "`")])
    else
      (st,
        [(.debug,
          "skipped `" ++ pathStr c.path ++ "` (" ++ log_action d ++ ")")])

/-- The per-candidate tail of `write` in src/render.rs (index check,
decision, execution), iterated over the run's candidates in order, as
the theme/scheme/template loops of `all_internal` do. Returns the
Decision computed for every candidate and the final state. -/
def runAll (h fmt : String → String) (mode : WriteMode) (dry : Bool) :
    List Candidate → SState → List Decision × SState
  | [], st => ([], st)
  | c :: cs, st =>
    let d := strategy.decide
      (Index.check h st.fs st.index c.path c.theme c.scheme c.template) mode
    let st1 := (execute h fmt dry d c st).1
    let rest := runAll h fmt mode dry cs st1
    (d :: rest.1, rest.2)

/-- `Session::save` from src/render.rs: persist the Index unless the
session is a dry run. Returns the persisted value (`none` when nothing
is written). -/
def session_save (dry_run : Bool) (index : List Entry) :
    Option (List Entry) :=
  if dry_run then none else some index

/-- A theme without per-theme config, exercising the fallback branches of
`resolve_path`. -/
def noCfgTheme : Theme := ⟨"t", "t", none⟩

/-- A concrete per-theme config used in concrete evaluations. -/
def forestTC : ThemeConfig := ⟨false, ⟨["schemes"], ["templates"], ["render"]⟩⟩

/-- A concrete theme named `forest` with a theme-local render directory. -/
def forestTheme : Theme := ⟨"forest", "forest", some forestTC⟩

/-- A monotheme project config with no shared render target. -/
def monoCfg : Config := ⟨⟨.Monotheme, none, []⟩⟩

/-- A polytheme project config. -/
def polyCfg : Config := ⟨⟨.Polytheme, none, []⟩⟩

/-- Concrete theme for run evaluations. -/
def exTheme : Theme := ⟨"T", "T", none⟩

/-- First concrete scheme for run evaluations. -/
def exScheme1 : Scheme := ⟨"s1", "serS1"⟩

/-- Second concrete scheme for run evaluations. -/
def exScheme2 : Scheme := ⟨"s2", "serS2"⟩

/-- Concrete template for run evaluations. -/
def exTemplate : Template := ⟨"t.conf.jinja", "SRC"⟩

/-- A concrete output path shared by two run candidates. -/
def exPath : PathT := ["render", "out.conf"]

/-- The entry a previous run would have recorded for `exPath` after
writing it last for `exScheme2`. -/
def exEntry : Entry :=
  Index.create_entry (fun s => s) exPath exTheme exScheme2 exTemplate "out2"

/-- Initial state of the concrete run: the file on disk equals what the
previous run wrote, and the Index tracks it. -/
def exState : SState := ⟨[(exPath, "out2")], [], [exEntry]⟩

/-- Two candidates that resolve to the same output path (a template
whose filename uses no scheme marker, rendered for two schemes of one
theme). -/
def exCands : List Candidate :=
  [⟨exPath, exTheme, exScheme1, exTemplate, "out1"⟩,
   ⟨exPath, exTheme, exScheme2, exTemplate, "out2"⟩]

/-- A single candidate with a fresh path. -/
def wCand : Candidate := ⟨["w.conf"], exTheme, exScheme1, exTemplate, "o"⟩

/-- A concrete path for Index checks. -/
def wPath : PathT := ["out.conf"]

/-- A concrete tracked entry whose stored hashes match nothing on disk. -/
def wEntry : Entry :=
  ⟨wPath, "T", "s1", "t.conf.jinja", "RH", "TH", "SH", "PH"⟩

theorem FS.read_write_self (fs : FS) (p : PathT) (c : String) :
    FS.read (FS.write fs p c) p = some c := by
  induction fs with
  | nil => simp [FS.write, FS.read]
  | cons qd fs ih =>
    obtain ⟨q, d⟩ := qd
    by_cases hq : q = p
    · simp [FS.write, FS.read, hq]
    · simp [FS.write, FS.read, hq, ih]

theorem FS.read_write_ne (fs : FS) (p : PathT) (c : String) (q : PathT)
    (hq : q ≠ p) : FS.read (FS.write fs p c) q = FS.read fs q := by
  induction fs with
  | nil => simp [FS.write, FS.read, Ne.symm hq]
  | cons rd fs ih =>
    obtain ⟨r, d⟩ := rd
    by_cases hr : r = p
    · subst hr
      simp [FS.write, FS.read, Ne.symm hq]
    · simp [FS.write, FS.read, hr, ih]

theorem Index.get_insert (idx : List Entry) (e : Entry) (p : PathT)
    (hp : e.path = p) : Index.get (Index.insert idx e) p = some e := by
  induction idx with
  | nil => simp [Index.insert, Index.get, hp]
  | cons f idx ih =>
    by_cases hf : f.path = e.path
    · simp [Index.insert, Index.get, hf, hp]
    · have hfp : f.path ≠ p := hp ▸ hf
      simp [Index.insert, Index.get, hf, hfp, ih]

theorem Index.get_insert_ne (idx : List Entry) (e : Entry) (q : PathT)
    (hq : q ≠ e.path) : Index.get (Index.insert idx e) q = Index.get idx q := by
  induction idx with
  | nil => simp [Index.insert, Index.get, Ne.symm hq]
  | cons f idx ih =>
    by_cases hf : f.path = e.path
    · have hfq : f.path ≠ q := by
        rw [hf]
        exact Ne.symm hq
      simp [Index.insert, Index.get, hf, Ne.symm hq, hfq]
    · simp [Index.insert, Index.get, hf, ih]

/-- C1: `Index::check` classifies an output path exactly as specified:
no entry is NotTracked; with an entry, a disk mismatch (including a
missing file) is Modified; a disk match with any changed input hash is
Stale; a disk match with all input hashes equal is Unchanged. -/
theorem claim_c1_check_classifies :
    ∀ (h : String → String) (fs : FS) (idx : List Entry) (p : PathT)
      (t : Theme) (s : Scheme) (T : Template),
      (Index.get idx p = none →
        Index.check h fs idx p t s T = FileStatus.NotTracked) ∧
      (∀ e, Index.get idx p = some e →
        (disk_matches h fs p e.render_hash = false →
          Index.check h fs idx p t s T = FileStatus.Modified) ∧
        (disk_matches h fs p e.render_hash = true →
          inputs_changed h t s T e = true →
          Index.check h fs idx p t s T = FileStatus.Stale) ∧
        (disk_matches h fs p e.render_hash = true →
          inputs_changed h t s T e = false →
          Index.check h fs idx p t s T = FileStatus.Unchanged)) := by
  intro h fs idx p t s T
  constructor
  · intro hn
    simp [Index.check, hn]
  · intro e he
    refine ⟨?_, ?_, ?_⟩
    · intro hd
      simp [Index.check, he, check_status, hd]
    · intro hd hic
      simp [Index.check, he, check_status, hd, hic]
    · intro hd hic
      simp [Index.check, he, check_status, hd, hic]

/-- Witness for C1 at concrete inputs: an untracked path is NotTracked,
and a tracked path whose file is missing on disk is Modified. -/
theorem claim_c1_witness :
    Index.check (fun s => s) [] [] wPath exTheme exScheme1 exTemplate =
      FileStatus.NotTracked ∧
    Index.check (fun s => s) [] [wEntry] wPath exTheme exScheme1 exTemplate =
      FileStatus.Modified := by
  constructor
  · exact (claim_c1_check_classifies (fun s => s) [] [] wPath exTheme
      exScheme1 exTemplate).1 rfl
  · exact ((claim_c1_check_classifies (fun s => s) [] [wEntry] wPath exTheme
      exScheme1 exTemplate).2 wEntry (by decide)).1 (by decide)

/-- C2: the write-decision strategy is the specified pure function of
FileStatus and WriteMode: NotTracked and Stale always Write; Unchanged
is Skip under Normal and ForceWrite under Force; Modified is Conflict
under Normal and ForceWrite under Force. -/
theorem claim_c2_decide_table :
    ∀ m : WriteMode,
      strategy.decide .NotTracked m = .Write ∧
      strategy.decide .Stale m = .Write ∧
      strategy.decide .Unchanged .Normal = .Skip ∧
      strategy.decide .Unchanged .Force = .ForceWrite ∧
      strategy.decide .Modified .Normal = .Conflict ∧
      strategy.decide .Modified .Force = .ForceWrite := by
  intro m
  cases m <;> exact ⟨rfl, rfl, rfl, rfl, rfl, rfl⟩

/-- C3: round-trip — an Entry built by `create_entry` from content `c`,
inserted into any Index, checks as Unchanged against an on-disk file
whose bytes are exactly `c` with the same theme, scheme and template. -/
theorem claim_c3_round_trip :
    ∀ (h : String → String) (p : PathT) (t : Theme) (s : Scheme)
      (T : Template) (content : String) (fs : FS) (idx : List Entry),
      Index.check h (FS.write fs p content)
        (Index.insert idx (Index.create_entry h p t s T content)) p t s T =
        FileStatus.Unchanged := by
  intro h p t s T content fs idx
  have hg := Index.get_insert idx (Index.create_entry h p t s T content) p rfl
  simp only [Index.check, hg]
  simp [check_status, disk_matches, FS.read_write_self, Index.create_entry,
    inputs_changed]

theorem opt_or_self {α : Type} (x : Option α) : x.or x = x := by
  cases x <;> rfl

theorem opt_merge_self {α : Type} (x : Option α) : Merge.merge x x = x := by
  cases x <;> rfl

theorem meta_merge_self (x : Meta) : Merge.merge x x = x := by
  cases x
  simp only [Merge.merge, instMergeMeta, instMergeOption, opt_or_self]

theorem extra_merge_self (x : Extra) : Merge.merge x x = x := by
  cases x
  simp only [Merge.merge, instMergeExtra, ite_self]

theorem provider_merge_self (x : Provider) : Merge.merge x x = x := by
  cases x
  simp only [Merge.merge, instMergeProvider, instMergeOption, opt_or_self]

theorem roles_merge_append (x : Roles) :
    Merge.merge x x = Roles.mk (x.entries ++ x.entries) := rfl

theorem replaceSwatch_of_mem {l : List Swatch} {s : Swatch} (hs : s ∈ l)
    (hn : (l.map Swatch.name).Nodup) : replaceSwatch l s = l := by
  induction l with
  | nil => cases hs
  | cons t ts ih =>
    rw [List.map_cons, List.nodup_cons] at hn
    rcases List.mem_cons.mp hs with rfl | hmem
    · simp [replaceSwatch]
    · have hne : ¬ t.name = s.name := by
        intro he
        exact hn.1 (he ▸ List.mem_map_of_mem Swatch.name hmem)
      simp [replaceSwatch, hne, ih hmem hn.2]

theorem foldl_replace_of_subset {xs l : List Swatch}
    (hsub : ∀ s ∈ xs, s ∈ l) (hn : (l.map Swatch.name).Nodup) :
    xs.foldl replaceSwatch l = l := by
  induction xs with
  | nil => rfl
  | cons x xs ih =>
    rw [List.foldl_cons, replaceSwatch_of_mem (hsub x (List.mem_cons_self x xs)) hn]
    exact ih (fun s hs => hsub s (List.mem_cons_of_mem x hs))

theorem palette_merge_self (x : Palette) (hn : x.keys.Nodup) :
    Merge.merge x x = x := by
  obtain ⟨sw⟩ := x
  simp only [Palette.keys] at hn
  show Palette.mk (sw.foldl replaceSwatch sw) = Palette.mk sw
  rw [foldl_replace_of_subset (fun s hs => hs) hn]

theorem raw_scheme_merge_self (x : RawScheme) (hp : x.palette.keys.Nodup)
    (hr : x.roles.entries = []) : Merge.merge x x = x := by
  obtain ⟨sc, sca, m, pal, rol, ex⟩ := x
  obtain ⟨re⟩ := rol
  simp only at hr
  subst hr
  show RawScheme.mk (Merge.merge sc sc) (Merge.merge sca sca) (Merge.merge m m)
      (Merge.merge pal pal) (Merge.merge (Roles.mk []) (Roles.mk []))
      (Merge.merge ex ex) = RawScheme.mk sc sca m pal (Roles.mk []) ex
  rw [opt_merge_self, opt_merge_self, meta_merge_self,
    palette_merge_self pal hp, extra_merge_self]
  rfl

theorem name_mem_replaceSwatch {l : List Swatch} {s : Swatch} {n : String}
    (hm : n ∈ l.map Swatch.name ∨ n = s.name) :
    n ∈ (replaceSwatch l s).map Swatch.name := by
  induction l with
  | nil =>
    rcases hm with h | rfl
    · simp at h
    · simp [replaceSwatch]
  | cons t ts ih =>
    by_cases ht : t.name = s.name
    · rcases hm with h | rfl
      · rw [List.map_cons, List.mem_cons] at h
        rcases h with rfl | h
        · simp [replaceSwatch, ht]
        · simp [replaceSwatch, ht, h]
      · simp [replaceSwatch, ht]
    · rcases hm with h | rfl
      · rw [List.map_cons, List.mem_cons] at h
        rcases h with rfl | h
        · simp [replaceSwatch, ht]
        · simp [replaceSwatch, ht, ih (Or.inl h)]
      · simp [replaceSwatch, ht, ih (Or.inr rfl)]

theorem name_mem_foldl_replace {xs l : List Swatch} {n : String}
    (hm : n ∈ l.map Swatch.name ∨ n ∈ xs.map Swatch.name) :
    n ∈ (xs.foldl replaceSwatch l).map Swatch.name := by
  induction xs generalizing l with
  | nil =>
    rcases hm with h | h
    · simpa using h
    · simp at h
  | cons x xs ih =>
    rw [List.foldl_cons]
    apply ih
    rcases hm with h | h
    · exact Or.inl (name_mem_replaceSwatch (Or.inl h))
    · rw [List.map_cons, List.mem_cons] at h
      rcases h with rfl | h
      · exact Or.inl (name_mem_replaceSwatch (Or.inr rfl))
      · exact Or.inr h

theorem palette_merge_keys (s b : Palette) (n : String)
    (hm : n ∈ s.keys ∨ n ∈ b.keys) : n ∈ (Merge.merge s b).keys := by
  obtain ⟨ss⟩ := s
  obtain ⟨bs⟩ := b
  simp only [Palette.keys] at hm
  show n ∈ (ss.foldl replaceSwatch bs).map Swatch.name
  exact name_mem_foldl_replace hm.symm

/-- C4 (amended): merge(x, x) = x holds for optional scalars, Meta,
Extra, Provider, and (given its set invariant of pairwise-distinct
swatch names) Palette, and every swatch key present in either input is
present in a merged Palette; Roles::merge, however, appends self's
entries after base's, so merging a Roles value with itself duplicates
its entries — idempotence for Roles (and hence for RawScheme through its
roles field) holds only for an empty role list. -/
theorem claim_c4_merge_amended :
    (∀ (α : Type) (x : Option α), Merge.merge x x = x) ∧
    (∀ x : Meta, Merge.merge x x = x) ∧
    (∀ x : Extra, Merge.merge x x = x) ∧
    (∀ x : Palette, x.keys.Nodup → Merge.merge x x = x) ∧
    (∀ x : Provider, Merge.merge x x = x) ∧
    (∀ x : Roles, Merge.merge x x = Roles.mk (x.entries ++ x.entries)) ∧
    (∀ x : RawScheme, x.palette.keys.Nodup → x.roles.entries = [] →
      Merge.merge x x = x) ∧
    (∀ (s b : Palette) (n : String), (n ∈ s.keys ∨ n ∈ b.keys) →
      n ∈ (Merge.merge s b).keys) :=
  ⟨fun _ => opt_merge_self, meta_merge_self, extra_merge_self,
    palette_merge_self, provider_merge_self, roles_merge_append,
    raw_scheme_merge_self, palette_merge_keys⟩

/-- Counterexample for C4 as stated: a singleton Roles value merged with
itself is not itself — the entry list is duplicated. -/
theorem claim_c4_counterexample :
    Merge.merge (Roles.mk [("fg", "red")]) (Roles.mk [("fg", "red")]) ≠
      Roles.mk [("fg", "red")] := by
  decide

/-- Witness for C4 (amended) at concrete palettes: idempotence for a
one-swatch palette and key preservation for a disjoint merge. -/
theorem claim_c4_witness :
    Merge.merge (Palette.mk [⟨"red", "f00"⟩]) (Palette.mk [⟨"red", "f00"⟩]) =
      Palette.mk [⟨"red", "f00"⟩] ∧
    "blue" ∈ (Merge.merge (Palette.mk [⟨"blue", "00f"⟩])
      (Palette.mk [⟨"red", "f00"⟩])).keys := by
  constructor
  · exact claim_c4_merge_amended.2.2.2.1 (Palette.mk [⟨"red", "f00"⟩])
      (by decide)
  · exact claim_c4_merge_amended.2.2.2.2.2.2.2 (Palette.mk [⟨"blue", "00f"⟩])
      (Palette.mk [⟨"red", "f00"⟩]) "blue" (Or.inl (by decide))

theorem pmap_get_eq_none {m : PMap} {k : String}
    (hk : k ∉ m.map Prod.fst) : PMap.get m k = none := by
  induction m with
  | nil => rfl
  | cons kv m ih =>
    obtain ⟨k1, v1⟩ := kv
    rw [List.map_cons, List.mem_cons] at hk
    push_neg at hk
    have hne : ¬ k1 = k := fun h => hk.1 (h.symm)
    simp [PMap.get, hne, ih hk.2]

theorem pmap_insert_of_not_mem {m : PMap} {k : String} (v : Provider)
    (hk : k ∉ m.map Prod.fst) : PMap.insert m k v = m ++ [(k, v)] := by
  induction m with
  | nil => rfl
  | cons kv m ih =>
    obtain ⟨k1, v1⟩ := kv
    rw [List.map_cons, List.mem_cons] at hk
    push_neg at hk
    have hne : ¬ k1 = k := fun h => hk.1 (h.symm)
    simp [PMap.insert, hne, ih hk.2]

theorem pmap_get_append (m l : PMap) (k : String) :
    PMap.get (m ++ l) k = (PMap.get m k).or (PMap.get l k) := by
  induction m with
  | nil => rfl
  | cons kv m ih =>
    obtain ⟨k1, v1⟩ := kv
    by_cases hk : k1 = k
    · simp [PMap.get, hk]
    · simp [PMap.get, hk, ih]

theorem foldl_provider_step_unknown (us : List Provider) :
    ∀ m : PMap, (∀ u ∈ us, u.host ∉ m.map Prod.fst) →
      (us.map Provider.host).Nodup →
      us.foldl provider_step m = m ++ us.map (fun u => (u.host, u)) := by
  induction us with
  | nil =>
    intro m _ _
    simp
  | cons u us ih =>
    intro m hm hn
    rw [List.map_cons, List.nodup_cons] at hn
    have hget : PMap.get m u.host = none :=
      pmap_get_eq_none (hm u (List.mem_cons_self u us))
    have hstep : provider_step m u = m ++ [(u.host, u)] := by
      rw [provider_step, hget]
      exact pmap_insert_of_not_mem u (hm u (List.mem_cons_self u us))
    rw [List.foldl_cons, hstep,
      ih (m ++ [(u.host, u)]) ?later hn.2, List.map_cons, List.append_assoc]
    case later =>
      intro v hv
      rw [List.map_append, List.mem_append]
      push_neg
      constructor
      · exact hm v (List.mem_cons_of_mem u hv)
      · have hvu : v.host ≠ u.host := by
          intro he
          exact hn.1 (he ▸ List.mem_map_of_mem Provider.host hv)
        simp [hvu]
    rfl

theorem map_snd_pair (us : List Provider) :
    (us.map (fun u => (u.host, u))).map
      (fun kv : String × Provider => kv.2) = us := by
  induction us with
  | nil => rfl
  | cons u us ih => simp [ih]

/-- C5: provider-table resolution — an empty user list yields exactly
the four built-ins in default order; a user provider for `github.com`
keeps the built-in's position and falls back to the built-in's
`blob_path`/`raw_path` for the fields it leaves unset; user providers
with hosts unknown to the built-ins (and pairwise distinct) are appended
after the built-ins in their given order. -/
theorem claim_c5_provider_resolution :
    merge_providers_with_defaults [] = default_providers ∧
    (∀ gp : Provider, gp.host = "github.com" →
      merge_providers_with_defaults [gp] =
        { host := "github.com"
          blob_path :=
            gp.blob_path.or (some "{host}/{owner}/{repo}/blob/{ref}/{file}")
          raw_path :=
            gp.raw_path.or
              (some "raw.githubusercontent.com/{owner}/{repo}/{ref}/{file}")
          branch := gp.branch } :: default_providers.drop 1) ∧
    (∀ us : List Provider,
      (∀ u ∈ us, u.host ∉ default_providers.map Provider.host) →
      (us.map Provider.host).Nodup →
      merge_providers_with_defaults us = default_providers ++ us) := by
  refine ⟨rfl, ?_, ?_⟩
  · intro gp hh
    obtain ⟨host, blob, raw, br⟩ := gp
    simp only at hh
    subst hh
    cases blob <;> cases raw <;> cases br <;> rfl
  · intro us hu hn
    have hhosts : (default_providers.map (fun p => (p.host, p))).map Prod.fst =
        default_providers.map Provider.host := rfl
    have hm : ∀ u ∈ us,
        u.host ∉ (default_providers.map (fun p => (p.host, p))).map Prod.fst := by
      intro u huu
      rw [hhosts]
      exact hu u huu
    show (us.foldl provider_step
        (default_providers.map (fun p => (p.host, p)))).map (fun kv => kv.2) =
      default_providers ++ us
    rw [foldl_provider_step_unknown us _ hm hn, List.map_append,
      map_snd_pair, map_snd_pair us]

/-- Witness for C5 at concrete inputs: a branch-only github override and
a single unknown host. -/
theorem claim_c5_witness :
    merge_providers_with_defaults [⟨"github.com", none, none, some "main"⟩] =
      { host := "github.com"
        blob_path := some "{host}/{owner}/{repo}/blob/{ref}/{file}"
        raw_path :=
          some "raw.githubusercontent.com/{owner}/{repo}/{ref}/{file}"
        branch := some "main" } :: default_providers.drop 1 ∧
    merge_providers_with_defaults [⟨"example.org", none, none, none⟩] =
      default_providers ++ [⟨"example.org", none, none, none⟩] := by
  constructor
  · exact claim_c5_provider_resolution.2.1
      ⟨"github.com", none, none, some "main"⟩ rfl
  · exact claim_c5_provider_resolution.2.2
      [⟨"example.org", none, none, none⟩] (by decide) (by decide)

/-- C6 (amended): output-path resolution strips the `.jinja` suffix,
substitutes the marker substrings — which are the literal tokens
`THEME` and `SCHEME`, without braces — into the filename, and prefixes
the theme's configured render directory: a template named
`THEME-SCHEME.conf.jinja` with theme `forest` and scheme `dark` and no
swatch resolves to the filename `forest-dark.conf` under the render
directory. (For a template literally named `{THEME}-{SCHEME}.conf.jinja`
the braces survive substitution.) -/
theorem claim_c6_resolve_amended :
    ∀ (na : String) (tc : ThemeConfig) (cfg : Config),
      resolve_path ⟨"forest", na, some tc⟩ "THEME-SCHEME.conf.jinja" "dark"
        cfg none = .ok (tc.dirs.render ++ ["forest-dark.conf"]) := by
  intro na tc cfg
  have h1 : resolve_path ⟨"forest", na, some tc⟩ "THEME-SCHEME.conf.jinja"
      "dark" cfg none =
      .ok (tc.dirs.render ++ [] ++ ["forest-dark.conf"]) := rfl
  rw [h1, List.append_nil]

/-- Counterexample for C6 as stated: the markers do not include braces,
so the template named `{THEME}-{SCHEME}.conf.jinja` resolves to the
filename `{forest}-{dark}.conf`, which is not `forest-dark.conf` and
does not even end with it. -/
theorem claim_c6_counterexample :
    resolve_path forestTheme "{THEME}-{SCHEME}.conf.jinja" "dark" monoCfg
      none = .ok ["render", "{forest}-{dark}.conf"] ∧
    "{forest}-{dark}.conf" ≠ "forest-dark.conf" ∧
    "forest-dark.conf".data.isSuffixOf "{forest}-{dark}.conf".data =
      false := by
  refine ⟨by decide, by decide, by decide⟩

/-- C8: executing a Conflict decision emits exactly one warning naming
the path and leaves the filesystem, the created-directory set and the
Index untouched, for every dry-run setting and state. -/
theorem claim_c8_conflict_noop :
    ∀ (h fmt : String → String) (dry : Bool) (c : Candidate) (st : SState),
      execute h fmt dry Decision.Conflict c st =
        (st, [(LogLevel.warn, conflict_warning c.path)]) := by
  intro h fmt dry c st
  rfl

/-- C9: evaluating `resolve_path` on a theme with no per-theme config
shows the `.expect("FIXME")` calls: under a Polytheme project, and under
a Monotheme project with no shared render target, the source panics
instead of returning an `Error::InternalBug` value. -/
theorem claim_c9_expect_panics :
    resolve_path noCfgTheme "a.conf.jinja" "s" polyCfg none =
      .panic "FIXME" ∧
    resolve_path noCfgTheme "a.conf.jinja" "s" monoCfg none =
      .panic "FIXME" := by
  refine ⟨by decide, by decide⟩

theorem execute_dry (h fmt : String → String) (d : Decision) (c : Candidate)
    (st : SState) : (execute h fmt true d c st).1 = st := by
  cases d <;> rfl

theorem execute_preserves_ne (h fmt : String → String) (dry : Bool)
    (d : Decision) (c : Candidate) (st : SState) (q : PathT)
    (hq : q ≠ c.path) :
    FS.read (execute h fmt dry d c st).1.fs q = FS.read st.fs q ∧
    Index.get (execute h fmt dry d c st).1.index q = Index.get st.index q := by
  cases d with
  | Conflict => exact ⟨rfl, rfl⟩
  | Skip => exact ⟨rfl, rfl⟩
  | Write =>
    cases dry with
    | true => exact ⟨rfl, rfl⟩
    | false =>
      exact ⟨FS.read_write_ne st.fs c.path (fmt c.output) q hq,
        Index.get_insert_ne st.index _ q hq⟩
  | ForceWrite =>
    cases dry with
    | true => exact ⟨rfl, rfl⟩
    | false =>
      exact ⟨FS.read_write_ne st.fs c.path (fmt c.output) q hq,
        Index.get_insert_ne st.index _ q hq⟩

theorem runAll_dry_state (h fmt : String → String) (mode : WriteMode) :
    ∀ (cs : List Candidate) (st : SState),
      (runAll h fmt mode true cs st).2 = st := by
  intro cs
  induction cs with
  | nil =>
    intro st
    rfl
  | cons c cs ih =>
    intro st
    simp only [runAll]
    rw [execute_dry]
    exact ih st

theorem decisions_agree (h fmt : String → String) (mode : WriteMode) :
    ∀ (cs : List Candidate) (st0 st1 : SState),
      (cs.map (fun c => c.path)).Nodup →
      (∀ c ∈ cs, FS.read st1.fs c.path = FS.read st0.fs c.path ∧
        Index.get st1.index c.path = Index.get st0.index c.path) →
      (runAll h fmt mode true cs st0).1 =
        (runAll h fmt mode false cs st1).1 := by
  intro cs
  induction cs with
  | nil =>
    intro st0 st1 _ _
    rfl
  | cons c cs ih =>
    intro st0 st1 hn hag
    obtain ⟨hf, hi⟩ := hag c (List.mem_cons_self c cs)
    have hcheck : Index.check h st1.fs st1.index c.path c.theme c.scheme
        c.template =
        Index.check h st0.fs st0.index c.path c.theme c.scheme c.template := by
      simp only [Index.check, check_status, disk_matches, hf, hi]
    rw [List.map_cons, List.nodup_cons] at hn
    simp only [runAll]
    rw [hcheck, execute_dry]
    congr 1
    apply ih st0 _ hn.2
    intro c2 hc2
    have hne : c2.path ≠ c.path := by
      intro he
      exact hn.1 (he ▸ List.mem_map_of_mem (fun c => c.path) hc2)
    obtain ⟨hf2, hi2⟩ := execute_preserves_ne h fmt false
      (strategy.decide (Index.check h st0.fs st0.index c.path c.theme
        c.scheme c.template) mode) c st1 c2.path hne
    obtain ⟨hf3, hi3⟩ := hag c2 (List.mem_cons_of_mem c hc2)
    exact ⟨hf2.trans hf3, hi2.trans hi3⟩

/-- C7 (amended): provided the candidates' resolved output paths are
pairwise distinct, a dry run computes exactly the same Decision for
every candidate as the same run with dry_run false, and it leaves the
filesystem, the created-directory set and the in-memory Index unchanged
and does not save the Index at session end. (With duplicate output
paths the two runs can compute different Decisions, because the wet run
updates the Index and the disk between candidates.) -/
theorem claim_c7_dry_run_amended :
    ∀ (h fmt : String → String) (mode : WriteMode) (cs : List Candidate)
      (st : SState),
      (cs.map (fun c => c.path)).Nodup →
      ((runAll h fmt mode true cs st).1 =
          (runAll h fmt mode false cs st).1 ∧
        (runAll h fmt mode true cs st).2 = st ∧
        session_save true (runAll h fmt mode true cs st).2.index = none) := by
  intro h fmt mode cs st hn
  exact ⟨decisions_agree h fmt mode cs st st hn (fun c _ => ⟨rfl, rfl⟩),
    runAll_dry_state h fmt mode cs st, rfl⟩

/-- Counterexample for C7 as stated: two candidates that resolve to the
same output path (a template with no scheme marker rendered for two
schemes, the Index holding the second scheme's entry from a previous
run). The dry run decides [Write, Skip] but the wet run decides
[Write, Write], because the wet run's first write re-stales the entry. -/
theorem claim_c7_counterexample :
    (runAll (fun s => s) (fun s => s) WriteMode.Normal true exCands
      exState).1 = [Decision.Write, Decision.Skip] ∧
    (runAll (fun s => s) (fun s => s) WriteMode.Normal false exCands
      exState).1 = [Decision.Write, Decision.Write] ∧
    [Decision.Write, Decision.Skip] ≠ [Decision.Write, Decision.Write] := by
  refine ⟨by decide, by decide, by decide⟩

/-- Witness for C7 (amended) at a concrete single-candidate run. -/
theorem claim_c7_witness :
    (runAll (fun s => s) (fun s => s) WriteMode.Normal true [wCand]
        exState).1 =
      (runAll (fun s => s) (fun s => s) WriteMode.Normal false [wCand]
        exState).1 ∧
    (runAll (fun s => s) (fun s => s) WriteMode.Normal true [wCand]
      exState).2 = exState ∧
    session_save true (runAll (fun s => s) (fun s => s) WriteMode.Normal
      true [wCand] exState).2.index = none :=
  claim_c7_dry_run_amended (fun s => s) (fun s => s) WriteMode.Normal
    [wCand] exState (by decide)

theorem themes_config_load_shape (td : PathT) (name : String)
    (rai : Option PathT) (rf : Option String)
    (parse : String → Except Unit RawThemeConfig)
    (expand : String → PathT → Except Unit PathT) :
    (∃ e, themes_config_load td name rai rf parse expand =
      Except.error e) ∨
    (∃ c, themes_config_load td name rai rf parse expand =
      Except.ok (some c)) := by
  cases rf with
  | none => exact Or.inl ⟨_, rfl⟩
  | some content =>
    cases hp : parse content with
    | error e =>
      exact Or.inl ⟨LoadErr.Parsing, by simp [themes_config_load, hp]⟩
    | ok raw =>
      cases hs : expand raw.dirs.schemes td with
      | error e =>
        exact Or.inl ⟨LoadErr.Expanding, by simp [themes_config_load, hp, hs]⟩
      | ok sdir =>
        cases ht : expand raw.dirs.templates td with
        | error e =>
          exact Or.inl ⟨LoadErr.Expanding,
            by simp [themes_config_load, hp, hs, ht]⟩
        | ok tdir =>
          refine Or.inr ⟨⟨raw.inherit, sdir, tdir,
            if raw.inherit then
              match rai with
              | none => td ++ [raw.dirs.render]
              | some dir => dir ++ [name]
            else td ++ [raw.dirs.render]⟩, ?_⟩
          simp [themes_config_load, hp, hs, ht]

/-- C10: the per-theme config loader never returns Ok(None) — it either
fails (read failure yields the Reading error for the theme's
theymer.toml path) or produces a present config — so the themes.rs
wiring gives every successfully loaded Theme a `config = Some(...)`. -/
theorem claim_c10_config_never_absent :
    ∀ (td : PathT) (name na : String) (rai : Option PathT)
      (rf : Option String) (parse : String → Except Unit RawThemeConfig)
      (expand : String → PathT → Except Unit PathT),
      themes_config_load td name rai rf parse expand ≠ Except.ok none ∧
      themes_config_load td name rai none parse expand =
        Except.error (LoadErr.Reading (td ++ [FILENAME])) ∧
      (∀ th : Theme,
        theme_from_load name na
            (themes_config_load td name rai rf parse expand) =
          Except.ok th → th.config.isSome = true) := by
  intro td name na rai rf parse expand
  refine ⟨?_, rfl, ?_⟩
  · rcases themes_config_load_shape td name rai rf parse expand with
      ⟨e, he⟩ | ⟨c, hc⟩
    · rw [he]
      simp
    · rw [hc]
      simp
  · intro th hth
    rcases themes_config_load_shape td name rai rf parse expand with
      ⟨e, he⟩ | ⟨c, hc⟩
    · rw [he] at hth
      simp [theme_from_load] at hth
    · rw [hc] at hth
      simp only [theme_from_load, Except.ok.injEq] at hth
      rw [← hth]
      rfl

/-- Witness for C10 at concrete inputs: a failed read of the per-theme
config file is a Reading error, never an absent config. -/
theorem claim_c10_witness :
    themes_config_load ["themes", "x"] "x" none none
        (fun _ => Except.error ()) (fun _ _ => Except.error ()) ≠
      Except.ok none ∧
    themes_config_load ["themes", "x"] "x" none none
        (fun _ => Except.error ()) (fun _ _ => Except.error ()) =
      Except.error (LoadErr.Reading ["themes", "x", FILENAME]) :=
  ⟨(claim_c10_config_never_absent ["themes", "x"] "x" "x" none none
      (fun _ => Except.error ()) (fun _ _ => Except.error ())).1,
   (claim_c10_config_never_absent ["themes", "x"] "x" "x" none none
      (fun _ => Except.error ()) (fun _ _ => Except.error ())).2.1⟩

end Theymer
